import Mathlib

/-!
Shallow embedding of the student/teacher portal backend
(Express + Mongoose server, main variant in `src/unnamed/part_001`).

The relevant collections (users, courses, assignments with embedded
submissions) are modelled as Lean structures; each HTTP route handler
becomes a pure function on a `DB` value that returns either an error
(the route's non-2xx response) or the updated database together with the
JSON payload the route responds with.  Real time (`new Date()`) and
generated ids (`uuidv4()`) are passed in as explicit parameters.
-/

namespace StudentPortal

/-- Roles carried by the JWT: the user schema restricts `role` to the
enum `["student", "teacher"]` and tokens are only signed with a stored
user's role. -/
inductive Role where
  | student
  | teacher
deriving DecidableEq

/-- A file reference as stored by `fileSchema`: remote URL, original
name, MIME type, byte size. -/
structure FileRef where
  url : String
  originalName : String
  mimetype : String
  size : Nat
deriving DecidableEq

/-- An embedded submission record (`submissionSchema`). `submittedAt`
and the due date are modelled as integer timestamps (milliseconds, as a
JS `Date` value). -/
structure Submission where
  studentId : String
  files : List FileRef
  submittedAt : Int
  marks : Option Int
  feedback : Option String
  isLate : Bool
deriving DecidableEq

/-- An assignment document (`assignmentSchema`). `dueDate` is stored as
an ISO string in Mongo; here it is the timestamp that string denotes. -/
structure Assignment where
  id : String
  courseId : String
  title : String
  description : String
  dueDate : Int
  maxMarks : Int
  createdBy : String
  createdAt : Int
  submissions : List Submission
deriving DecidableEq

/-- A course document (`courseSchema`): owning teacher and the list of
enrolled student ids. -/
structure Course where
  id : String
  name : String
  code : String
  description : String
  teacherId : String
  students : List String
  materials : List FileRef
deriving DecidableEq

/-- The slice of a user document (`userSchema`) the assignment routes
read: id, role, display name, roll number. -/
structure User where
  id : String
  role : Role
  name : String
  rollNumber : Option String
deriving DecidableEq

/-- The database state: the three collections the assignment/submission
engine touches. -/
structure DB where
  users : List User
  courses : List Course
  assignments : List Assignment
deriving DecidableEq

/-- Error outcomes of a route, by HTTP status: 400 for malformed input,
403 for an authenticated-but-not-permitted caller, 404 for a missing
entity. -/
inductive Err where
  | InvalidInput
  | Forbidden
  | NotFound
deriving DecidableEq

/-- `Model.findOne({ id })`: first document whose `id` field matches. -/
def findAssignment (db : DB) (aid : String) : Option Assignment :=
  db.assignments.find? (fun a => a.id == aid)

/-- `Course.findOne({ id })`. -/
def findCourse (db : DB) (cid : String) : Option Course :=
  db.courses.find? (fun c => c.id == cid)

/-- `User.findOne({ id })`. -/
def findUser (db : DB) (uid : String) : Option User :=
  db.users.find? (fun u => u.id == uid)

/-- Mutating the document returned by `array.find(...)` in place, as the
route handlers do, rewrites exactly the first element satisfying the
predicate. -/
def updateFirst (p : α → Bool) (f : α → α) : List α → List α
  | [] => []
  | x :: xs => if p x then f x :: xs else x :: updateFirst p f xs

/-- `await assignment.save()`: write the mutated document back over the
one that was fetched (the first with its id). -/
def saveAssignment (db : DB) (a : Assignment) : DB :=
  { db with assignments := updateFirst (fun x => x.id == a.id) (fun _ => a) db.assignments }

/-- `await course.save()`. -/
def saveCourse (db : DB) (c : Course) : DB :=
  { db with courses := updateFirst (fun x => x.id == c.id) (fun _ => c) db.courses }

/-- `POST /api/assignments/:id/submit` (part_001 lines 606–658): role
check, assignment lookup, enrollment check, then create-or-append the
caller's submission with a recomputed timestamp and late flag.
`uploaded` is the list of file references produced by the Cloudinary
uploads of the request's files. -/
def submitFiles (db : DB) (uid : String) (role : Role) (aid : String)
    (uploaded : List FileRef) (now : Int) : Except Err (DB × Submission) :=
  if role ≠ Role.student then .error .Forbidden
  else
    match findAssignment db aid with
    | none => .error .NotFound
    | some assignment =>
      match findCourse db assignment.courseId with
      | none => .error .Forbidden
      | some course =>
        if uid ∉ course.students then .error .Forbidden
        else
          let isLate : Bool := decide (now > assignment.dueDate)
          match assignment.submissions.find? (fun s => s.studentId == uid) with
          | none =>
            let sub : Submission :=
              { studentId := uid, files := uploaded, submittedAt := now,
                marks := none, feedback := none, isLate := isLate }
            let a := { assignment with submissions := assignment.submissions ++ [sub] }
            .ok (saveAssignment db a, sub)
          | some sub =>
            let sub' := { sub with
              files := sub.files ++ uploaded,
              submittedAt := now, isLate := isLate }
            let a := { assignment with
              submissions := updateFirst (fun s => s.studentId == uid)
                (fun s => { s with
                  files := s.files ++ uploaded,
                  submittedAt := now, isLate := isLate })
                assignment.submissions }
            .ok (saveAssignment db a, sub')

/-- The database state after a submit request: the route only calls
`assignment.save()` on the success path, so an error response leaves the
store untouched. -/
def dbAfterSubmit (db : DB) (uid : String) (role : Role) (aid : String)
    (uploaded : List FileRef) (now : Int) : DB :=
  match submitFiles db uid role aid uploaded now with
  | .ok (db', _) => db'
  | .error _ => db

/-- JS truthiness of an optional request-body string: `!x` holds for a
missing field and for the empty string. -/
def strFalsy : Option String → Bool
  | none => true
  | some s => s == ""

/-- The assignment document the create route builds: generated id,
`description || ""`, `dueDate` defaulting to the current time, the
numeric `maxMarks`, the caller as creator, and an empty submissions
list. -/
def mkAssignment (newId cid ttl : String) (description : Option String)
    (dueDate : Option Int) (mm : Int) (uid : String) (now : Int) : Assignment :=
  { id := newId, courseId := cid, title := ttl,
    description := description.getD "",
    dueDate := dueDate.getD now, maxMarks := mm,
    createdBy := uid, createdAt := now, submissions := [] }

/-- `POST /api/assignments` (part_001 lines 557–596): teacher-only,
required fields, positive `maxMarks`, course-ownership check, then a new
assignment with an empty submissions list is inserted and returned.
`newId` stands for the generated `uuidv4()` and `now` for `new Date()`;
the two 400 branches of the route (missing field, bad number) are both
`InvalidInput`. -/
def createAssignment (db : DB) (uid : String) (role : Role)
    (courseId title description : Option String) (dueDate : Option Int)
    (maxMarks : Option Int) (newId : String) (now : Int) :
    Except Err (DB × Assignment) :=
  if role ≠ Role.teacher then .error .Forbidden
  else if strFalsy courseId || strFalsy title || maxMarks == none then .error .InvalidInput
  else if maxMarks.getD 0 ≤ 0 then .error .InvalidInput
  else
    match findCourse db (courseId.getD "") with
    | none => .error .Forbidden
    | some course =>
      if course.teacherId ≠ uid then .error .Forbidden
      else
        let a := mkAssignment newId (courseId.getD "") (title.getD "") description dueDate
          (maxMarks.getD 0) uid now
        .ok ({ db with assignments := db.assignments ++ [a] }, a)

/-- `POST /api/courses/:courseId/join` (part_001 lines 511–526):
students only; a caller already in `course.students` is not pushed again
and no save happens; the response carries the (possibly updated)
course. -/
def joinCourse (db : DB) (uid : String) (role : Role) (cid : String) :
    Except Err (DB × Course) :=
  if role ≠ Role.student then .error .Forbidden
  else
    match findCourse db cid with
    | none => .error .NotFound
    | some course =>
      if uid ∈ course.students then .ok (db, course)
      else
        let course' := { course with students := course.students ++ [uid] }
        .ok (saveCourse db course', course')

/-- The database state after a join request (errors leave it as is). -/
def dbAfterJoin (db : DB) (uid : String) (role : Role) (cid : String) : DB :=
  match joinCourse db uid role cid with
  | .ok (db', _) => db'
  | .error _ => db

/-- `POST /api/assignments/:id/grade` (part_001 lines 713–738):
teacher-only, course-ownership check, submission looked up by the
graded student's id; sets `marks` to the body's value as-is and
`feedback` to `feedback || null` (so an empty string becomes null). -/
def gradeSubmission (db : DB) (uid : String) (role : Role) (aid : String)
    (studentId : String) (marks : Option Int) (feedback : Option String) :
    Except Err (DB × Submission) :=
  if role ≠ Role.teacher then .error .Forbidden
  else
    match findAssignment db aid with
    | none => .error .NotFound
    | some assignment =>
      match findCourse db assignment.courseId with
      | none => .error .Forbidden
      | some course =>
        if course.teacherId ≠ uid then .error .Forbidden
        else
          match assignment.submissions.find? (fun s => s.studentId == studentId) with
          | none => .error .NotFound
          | some sub =>
            let fb := match feedback with
              | none => none
              | some f => if f == "" then none else some f
            let sub' := { sub with marks := marks, feedback := fb }
            let a := { assignment with
              submissions := updateFirst (fun s => s.studentId == studentId)
                (fun s => { s with marks := marks, feedback := fb })
                assignment.submissions }
            .ok (saveAssignment db a, sub')

/-- A submission as the teacher branch of the submissions listing
returns it: enriched with the student's display name and roll number. -/
structure SubmissionView where
  studentId : String
  studentName : String
  rollNumber : Option String
  files : List FileRef
  submittedAt : Int
  marks : Option Int
  feedback : Option String
  isLate : Bool
deriving DecidableEq

/-- The enrichment step of the teacher branch: look the student up among
the users; a missing student gives name "Unknown" and a null roll
number. -/
def enrich (db : DB) (s : Submission) : SubmissionView :=
  match findUser db s.studentId with
  | some st =>
    { studentId := s.studentId, studentName := st.name,
      rollNumber := st.rollNumber, files := s.files,
      submittedAt := s.submittedAt, marks := s.marks,
      feedback := s.feedback, isLate := s.isLate }
  | none =>
    { studentId := s.studentId, studentName := "Unknown",
      rollNumber := none, files := s.files,
      submittedAt := s.submittedAt, marks := s.marks,
      feedback := s.feedback, isLate := s.isLate }

/-- The two shapes of a successful submissions listing: the teacher view
with enriched records, the student view with raw submissions. -/
inductive SubmissionsResp where
  | teacherView (subs : List SubmissionView)
  | studentView (subs : List Submission)
deriving DecidableEq

/-- `GET /api/assignments/:id/submissions` (part_001 lines 661–710):
404 for a missing assignment or course; a teacher must own the course
and gets every submission enriched; a student must be enrolled and gets
their own submission, or an empty list. -/
def listSubmissions (db : DB) (uid : String) (role : Role) (aid : String) :
    Except Err SubmissionsResp :=
  match findAssignment db aid with
  | none => .error .NotFound
  | some assignment =>
    match findCourse db assignment.courseId with
    | none => .error .NotFound
    | some course =>
      match role with
      | .teacher =>
        if course.teacherId ≠ uid then .error .Forbidden
        else .ok (.teacherView (assignment.submissions.map (enrich db)))
      | .student =>
        if uid ∉ course.students then .error .Forbidden
        else
          match assignment.submissions.find? (fun s => s.studentId == uid) with
          | none => .ok (.studentView [])
          | some sub => .ok (.studentView [sub])

/-- The local effect of the delete-file route on the caller's
submission: `sub.files = sub.files.filter((f) => f.url !== fileUrl)`. -/
def delFileUpdate (fileUrl : String) (s : Submission) : Submission :=
  { s with files := s.files.filter (fun f => f.url ≠ fileUrl) }

/-- `DELETE /api/assignments/:id/files` (part_001 lines 741–765): the
submission is looked up by the caller's own id; every file whose url
matches is filtered out; the Cloudinary deletion is attempted inside a
try/catch whose failure is only logged, so the saved state does not
depend on `remoteOk`, the outcome of that remote call. -/
def deleteFile (db : DB) (uid : String) (aid : String) (fileUrl : String)
    (remoteOk : Bool) : Except Err DB :=
  match findAssignment db aid with
  | none => .error .NotFound
  | some assignment =>
    match assignment.submissions.find? (fun s => s.studentId == uid) with
    | none => .error .NotFound
    | some _ =>
      let _ := remoteOk
      let a := { assignment with
        submissions := updateFirst (fun s => s.studentId == uid)
          (delFileUpdate fileUrl) assignment.submissions }
      .ok (saveAssignment db a)

/-- The database state after a delete-file request. -/
def dbAfterDeleteFile (db : DB) (uid : String) (aid : String)
    (fileUrl : String) (remoteOk : Bool) : DB :=
  match deleteFile db uid aid fileUrl remoteOk with
  | .ok db' => db'
  | .error _ => db

/-- An entry of the teacher dashboard's `toGrade` list. -/
structure ToGradeEntry where
  assignmentId : String
  courseId : String
  studentId : String
  submittedAt : Int
  isLate : Bool
deriving DecidableEq

/-- The teacher branch of `GET /api/dashboard/summary` (part_001 lines
879–907): owned courses, their assignments, and one `toGrade` entry per
submission whose `marks` is null/undefined; the route responds with the
three counts. Returns (myCoursesCount, assignmentsCount,
submissionsToGradeCount). -/
def teacherDashboard (db : DB) (uid : String) : Nat × Nat × Nat :=
  let myCourses := db.courses.filter (fun c => c.teacherId == uid)
  let courseIds := myCourses.map (fun c => c.id)
  let myAssignments := db.assignments.filter (fun a => courseIds.contains a.courseId)
  let toGrade := (myAssignments.map (fun a =>
    (a.submissions.filter (fun s => s.marks == none)).map (fun s =>
      ({ assignmentId := a.id, courseId := a.courseId, studentId := s.studentId,
         submittedAt := s.submittedAt, isLate := s.isLate } : ToGradeEntry)))).flatten
  (myCourses.length, myAssignments.length, toGrade.length)

/-- Modelled from the spec: whether an assignment belongs to a course
owned by the given teacher. -/
def ownedByTeacher (db : DB) (uid : String) (a : Assignment) : Bool :=
  db.courses.any (fun c => c.teacherId == uid && c.id == a.courseId)

/-- Modelled from the spec: the number of submissions of one assignment
whose score is absent. -/
def ungradedCount (a : Assignment) : Nat :=
  a.submissions.countP (fun s => s.marks == none)

/-- Modelled from the spec's words for the dashboard count ("the number
of submissions, across all assignments of courses owned by that teacher,
whose score is absent"), to be compared with the route's computation. -/
def specUngradedCount (db : DB) (uid : String) : Nat :=
  ((db.assignments.filter (ownedByTeacher db uid)).map ungradedCount).sum

/-- The literal reading of the delete-file claim's ownership clause: the
acting user owns the submission that holds a file with the given url. -/
def ownsFileSubmission (a : Assignment) (uid url : String) : Prop :=
  ∃ s ∈ a.submissions, s.studentId = uid ∧ ∃ f ∈ s.files, f.url = url

instance (a : Assignment) (uid url : String) : Decidable (ownsFileSubmission a uid url) := by
  unfold ownsFileSubmission
  exact inferInstance

/-- The per-assignment invariant of the data model: at most one
submission record per student, i.e. the studentIds of the submission
list are pairwise distinct. -/
def subOncePerStudent (a : Assignment) : Prop :=
  (a.submissions.map (fun s => s.studentId)).Nodup

/-- The invariant over the whole store. -/
def dbInv (db : DB) : Prop :=
  ∀ a ∈ db.assignments, subOncePerStudent a

/-- The database state after a create-assignment request. -/
def dbAfterCreate (db : DB) (uid : String) (role : Role)
    (courseId title description : Option String) (dueDate : Option Int)
    (maxMarks : Option Int) (newId : String) (now : Int) : DB :=
  match createAssignment db uid role courseId title description dueDate maxMarks newId now with
  | .ok (db', _) => db'
  | .error _ => db

/-- The database state after a grade request. -/
def dbAfterGrade (db : DB) (uid : String) (role : Role) (aid : String)
    (studentId : String) (marks : Option Int) (feedback : Option String) : DB :=
  match gradeSubmission db uid role aid studentId marks feedback with
  | .ok (db', _) => db'
  | .error _ => db

/-- The submission record a first-time submit creates: uploaded file
list, current timestamp, null score and feedback, late flag computed as
`now > due`. -/
def freshSub (uid : String) (uploaded : List FileRef) (now due : Int) : Submission :=
  { studentId := uid, files := uploaded, submittedAt := now,
    marks := none, feedback := none, isLate := decide (now > due) }

/-- How a repeat submit mutates the existing record: append the new
files, refresh the timestamp, recompute the late flag against the same
due date. -/
def submitUpdate (uploaded : List FileRef) (now due : Int) (s : Submission) : Submission :=
  { s with files := s.files ++ uploaded, submittedAt := now, isLate := decide (now > due) }

/-! Concrete fixtures used by the witness theorems. -/

def stu1 : User :=
  { id := "s1", role := .student, name := "Asha", rollNumber := some "R1" }

def tea1 : User :=
  { id := "t1", role := .teacher, name := "Prof", rollNumber := none }

def file1 : FileRef :=
  { url := "u1", originalName := "hw.pdf", mimetype := "application/pdf", size := 10 }

def course1 : Course :=
  { id := "c1", name := "CS101", code := "CS101", description := "",
    teacherId := "t1", students := ["s1"], materials := [] }

def sub1 : Submission :=
  { studentId := "s1", files := [file1], submittedAt := 50,
    marks := none, feedback := none, isLate := false }

def asg1 : Assignment :=
  { id := "a1", courseId := "c1", title := "HW1", description := "",
    dueDate := 100, maxMarks := 100, createdBy := "t1", createdAt := 0,
    submissions := [sub1] }

def exDB : DB :=
  { users := [stu1, tea1], courses := [course1], assignments := [asg1] }

/-- How grading mutates the looked-up submission: set the score as sent
and the feedback as `feedback || null`. -/
def gradeUpdate (marks : Option Int) (fb : Option String) (s : Submission) : Submission :=
  { s with marks := marks, feedback := fb }

/-- A JS-falsy-aware validity test for the create-assignment body: a
missing or empty `courseId`/`title`, a missing `maxMarks`, or a
non-positive `maxMarks` make the input invalid. -/
def badAssignmentInput (courseId title : Option String) (maxMarks : Option Int) : Bool :=
  strFalsy courseId || strFalsy title ||
    (match maxMarks with
     | none => true
     | some m => decide (m ≤ 0))

/-! Generic lemmas about `updateFirst` and `List.find?`. -/

theorem updateFirst_map_eq {α β : Type} (p : α → Bool) (f : α → α) (g : α → β)
    (h : ∀ x, g (f x) = g x) : ∀ l : List α, (updateFirst p f l).map g = l.map g
  | [] => rfl
  | x :: xs => by
    cases hp : p x
    · simp [updateFirst, hp, updateFirst_map_eq p f g h xs]
    · simp [updateFirst, hp, h x]

theorem updateFirst_congr {α : Type} (p : α → Bool) (f g : α → α)
    (h : ∀ x, f x = g x) : ∀ l : List α, updateFirst p f l = updateFirst p g l
  | [] => rfl
  | x :: xs => by
    cases hp : p x
    · simp [updateFirst, hp, updateFirst_congr p f g h xs]
    · simp [updateFirst, hp, h x]

theorem mem_updateFirst_const {α : Type} (p : α → Bool) (a : α) :
    ∀ (l : List α) (x : α), x ∈ updateFirst p (fun _ => a) l → x ∈ l ∨ x = a
  | [], x, h => by cases h
  | y :: ys, x, h => by
    by_cases hp : p y = true
    · rw [updateFirst, if_pos hp] at h
      rcases List.mem_cons.mp h with rfl | h'
      · exact Or.inr rfl
      · exact Or.inl (List.mem_cons_of_mem _ h')
    · rw [updateFirst, if_neg hp] at h
      rcases List.mem_cons.mp h with rfl | h'
      · exact Or.inl (List.mem_cons_self _ _)
      · rcases mem_updateFirst_const p a ys x h' with h'' | h''
        · exact Or.inl (List.mem_cons_of_mem _ h'')
        · exact Or.inr h''

theorem find?_updateFirst_const {α : Type} (p : α → Bool) (a : α) (hp : p a = true) :
    ∀ (l : List α) (x : α), l.find? p = some x →
      (updateFirst p (fun _ => a) l).find? p = some a
  | [], x, h => by simp [List.find?] at h
  | y :: ys, x, h => by
    cases hy : p y
    · rw [List.find?_cons_of_neg _ (by simp [hy])] at h
      simpa [updateFirst, hy, List.find?_cons_of_neg _ (by simp [hy] : ¬ p y = true)]
        using find?_updateFirst_const p a hp ys x h
    · simp [updateFirst, hy, List.find?_cons_of_pos _ hp]

theorem updateFirst_decomp {α : Type} (p : α → Bool) (f : α → α) :
    ∀ (l : List α) (x : α), l.find? p = some x →
      ∃ l₁ l₂, l = l₁ ++ x :: l₂ ∧ updateFirst p f l = l₁ ++ f x :: l₂ ∧
        ∀ y ∈ l₁, p y = false
  | [], x, h => by simp [List.find?] at h
  | y :: ys, x, h => by
    cases hy : p y
    · rw [List.find?_cons_of_neg _ (by simp [hy])] at h
      obtain ⟨l₁, l₂, h1, h2, h3⟩ := updateFirst_decomp p f ys x h
      refine ⟨y :: l₁, l₂, by simp [h1], ?_, ?_⟩
      · simp [updateFirst, hy, h2]
      · intro z hz
        rcases List.mem_cons.mp hz with rfl | hz'
        · exact hy
        · exact h3 z hz'
    · rw [List.find?_cons_of_pos _ hy] at h
      obtain rfl : y = x := by simpa using h
      exact ⟨[], ys, by simp, by simp [updateFirst, hy], by simp⟩

theorem updateFirst_mem_of_find? {α : Type} (p : α → Bool) (f : α → α)
    {l : List α} {x : α} (h : l.find? p = some x) : f x ∈ updateFirst p f l := by
  obtain ⟨l₁, l₂, _, h2, _⟩ := updateFirst_decomp p f l x h
  rw [h2]
  exact List.mem_append_right _ (List.mem_cons_self _ _)

theorem find?_append_cons {α : Type} (p : α → Bool) (x : α) (hx : p x = true) :
    ∀ (l₁ l₂ : List α), (∀ y ∈ l₁, p y = false) → (l₁ ++ x :: l₂).find? p = some x
  | [], l₂, _ => by simp [List.find?_cons_of_pos _ hx]
  | y :: ys, l₂, h => by
    have hy : p y = false := h y (List.mem_cons_self _ _)
    rw [List.cons_append, List.find?_cons_of_neg _ (by simp [hy])]
    exact find?_append_cons p x hx ys l₂ (fun z hz => h z (List.mem_cons_of_mem _ hz))

/-! Lemmas about the save helpers. -/

theorem findAssignment_saveAssignment (db : DB) (aid : String) (a a' : Assignment)
    (h : findAssignment db aid = some a) (hid : a'.id = a.id) :
    findAssignment (saveAssignment db a') aid = some a' := by
  have haid : a.id = aid := by simpa using List.find?_some h
  have hpred : (fun x : Assignment => x.id == a'.id) = (fun x : Assignment => x.id == aid) := by
    funext x
    rw [hid, haid]
  unfold findAssignment saveAssignment
  simp only [hpred]
  exact find?_updateFirst_const _ a' (by simp [hid, haid]) db.assignments a h

theorem findCourse_saveCourse (db : DB) (cid : String) (c c' : Course)
    (h : findCourse db cid = some c) (hid : c'.id = c.id) :
    findCourse (saveCourse db c') cid = some c' := by
  have hcid : c.id = cid := by simpa using List.find?_some h
  have hpred : (fun x : Course => x.id == c'.id) = (fun x : Course => x.id == cid) := by
    funext x
    rw [hid, hcid]
  unfold findCourse saveCourse
  simp only [hpred]
  exact find?_updateFirst_const _ c' (by simp [hid, hcid]) db.courses c h

theorem dbInv_saveAssignment {db : DB} (hinv : dbInv db) {a : Assignment}
    (ha : subOncePerStudent a) : dbInv (saveAssignment db a) := by
  intro x hx
  rcases mem_updateFirst_const _ a db.assignments x hx with h' | rfl
  · exact hinv x h'
  · exact ha

theorem updateFirst_length {α : Type} (p : α → Bool) (f : α → α) :
    ∀ l : List α, (updateFirst p f l).length = l.length
  | [] => rfl
  | x :: xs => by
    cases hp : p x
    · simp [updateFirst, hp, updateFirst_length p f xs]
    · simp [updateFirst, hp]

theorem nodup_updateFirst_map {α β : Type} (p : α → Bool) (f : α → α) (g : α → β)
    (l : List α) (h : ∀ x, g (f x) = g x) (hl : (l.map g).Nodup) :
    ((updateFirst p f l).map g).Nodup := by
  rw [updateFirst_map_eq p f g h l]
  exact hl

theorem submitFiles_ok_inv {db : DB} {uid : String} {role : Role} {aid : String}
    {uploaded : List FileRef} {now : Int} {db' : DB} {sub : Submission}
    (hinv : dbInv db)
    (h : submitFiles db uid role aid uploaded now = .ok (db', sub)) : dbInv db' := by
  by_cases hrole : role = Role.student
  · subst hrole
    rcases ha : findAssignment db aid with _ | a
    · simp [submitFiles, ha] at h
    · rcases hc : findCourse db a.courseId with _ | c
      · simp [submitFiles, ha, hc] at h
      · by_cases hm : uid ∈ c.students
        · rcases hf : a.submissions.find? (fun s => s.studentId == uid) with _ | prev
          · simp [submitFiles, ha, hc, hm, hf] at h
            obtain ⟨rfl, -⟩ := h
            apply dbInv_saveAssignment hinv
            have hnods := hinv a (List.mem_of_find?_eq_some ha)
            have hnotin : uid ∉ a.submissions.map (fun s => s.studentId) := by
              intro hin
              rcases List.mem_map.mp hin with ⟨s, hs, hseq⟩
              have hfs := List.find?_eq_none.mp hf s hs
              simp [hseq] at hfs
            unfold subOncePerStudent at hnods ⊢
            simp only [List.map_append, List.map_cons, List.map_nil]
            rw [List.nodup_append]
            exact ⟨hnods, List.nodup_singleton _, by simpa [List.disjoint_singleton] using hnotin⟩
          · simp [submitFiles, ha, hc, hm, hf] at h
            obtain ⟨rfl, -⟩ := h
            apply dbInv_saveAssignment hinv
            have hnods := hinv a (List.mem_of_find?_eq_some ha)
            unfold subOncePerStudent at hnods ⊢
            exact nodup_updateFirst_map _ _ _ _ (fun x => rfl) hnods
        · simp [submitFiles, ha, hc, hm] at h
  · simp [submitFiles, hrole] at h

theorem gradeSubmission_ok_inv {db : DB} {uid : String} {role : Role} {aid sid : String}
    {marks : Option Int} {feedback : Option String} {db' : DB} {sub : Submission}
    (hinv : dbInv db)
    (h : gradeSubmission db uid role aid sid marks feedback = .ok (db', sub)) : dbInv db' := by
  by_cases hrole : role = Role.teacher
  · subst hrole
    rcases ha : findAssignment db aid with _ | a
    · simp [gradeSubmission, ha] at h
    · rcases hc : findCourse db a.courseId with _ | c
      · simp [gradeSubmission, ha, hc] at h
      · by_cases hown : c.teacherId = uid
        · rcases hf : a.submissions.find? (fun s => s.studentId == sid) with _ | prev
          · simp [gradeSubmission, ha, hc, hown, hf] at h
          · simp [gradeSubmission, ha, hc, hown, hf] at h
            obtain ⟨rfl, -⟩ := h
            apply dbInv_saveAssignment hinv
            have hnods := hinv a (List.mem_of_find?_eq_some ha)
            unfold subOncePerStudent at hnods ⊢
            exact nodup_updateFirst_map _ _ _ _ (fun x => rfl) hnods
        · simp [gradeSubmission, ha, hc, hown] at h
  · simp [gradeSubmission, hrole] at h

theorem deleteFile_ok_inv {db : DB} {uid aid fileUrl : String} {remoteOk : Bool} {db' : DB}
    (hinv : dbInv db)
    (h : deleteFile db uid aid fileUrl remoteOk = .ok db') : dbInv db' := by
  rcases ha : findAssignment db aid with _ | a
  · simp [deleteFile, ha] at h
  · rcases hf : a.submissions.find? (fun s => s.studentId == uid) with _ | prev
    · simp [deleteFile, ha, hf] at h
    · simp [deleteFile, ha, hf] at h
      obtain rfl := h.symm
      apply dbInv_saveAssignment hinv
      have hnods := hinv a (List.mem_of_find?_eq_some ha)
      unfold subOncePerStudent at hnods ⊢
      exact nodup_updateFirst_map _ _ _ _ (fun x => rfl) hnods

theorem createAssignment_ok_inv {db : DB} {uid : String} {role : Role}
    {courseId title description : Option String} {dueDate maxMarks : Option Int}
    {newId : String} {now : Int} {db' : DB} {a : Assignment}
    (hinv : dbInv db)
    (h : createAssignment db uid role courseId title description dueDate maxMarks newId now =
      .ok (db', a)) : dbInv db' := by
  by_cases hrole : role = Role.teacher
  · subst hrole
    cases hbad : strFalsy courseId || strFalsy title || (maxMarks == none)
    · by_cases hmm : maxMarks.getD 0 ≤ 0
      · simp [createAssignment, hbad, hmm] at h
      · rcases hfc : findCourse db (courseId.getD "") with _ | c
        · simp [createAssignment, hbad, hmm, hfc] at h
        · by_cases hown : c.teacherId = uid
          · simp [createAssignment, hbad, hmm, hfc, hown] at h
            obtain ⟨rfl, -⟩ := h
            intro x hx
            rcases List.mem_append.mp hx with hx' | hx'
            · exact hinv x hx'
            · have hx'' : x = mkAssignment newId (courseId.getD "") (title.getD "")
                description dueDate (maxMarks.getD 0) uid now := by simpa using hx'
              subst hx''
              simp [subOncePerStudent, mkAssignment]
          · simp [createAssignment, hbad, hmm, hfc, hown] at h
    · simp [createAssignment, hbad] at h
  · simp [createAssignment, hrole] at h

theorem joinCourse_assignments {db : DB} {uid : String} {role : Role} {cid : String}
    {db' : DB} {c : Course}
    (h : joinCourse db uid role cid = .ok (db', c)) : db'.assignments = db.assignments := by
  by_cases hrole : role = Role.student
  · subst hrole
    rcases hfc : findCourse db cid with _ | c0
    · simp [joinCourse, hfc] at h
    · by_cases hm : uid ∈ c0.students
      · simp [joinCourse, hfc, hm] at h
        obtain ⟨rfl, -⟩ := h
        rfl
      · simp [joinCourse, hfc, hm] at h
        obtain ⟨rfl, -⟩ := h
        rfl
  · simp [joinCourse, hrole] at h

/-- C2: a submit-files request fails with Forbidden when the caller's
role is not student or when the caller is not in the enrollment set of
the assignment's course (including the degenerate case of a missing
course document), fails with NotFound for a missing assignment, and any
error response leaves the store untouched. The role check precedes the
assignment lookup, so a non-student caller gets Forbidden even when the
assignment is missing. -/
theorem submit_error_cases (db : DB) (uid : String) (role : Role) (aid : String)
    (uploaded : List FileRef) (now : Int) :
    (role ≠ Role.student → submitFiles db uid role aid uploaded now = .error .Forbidden) ∧
    (findAssignment db aid = none →
      submitFiles db uid Role.student aid uploaded now = .error .NotFound) ∧
    (∀ a, findAssignment db aid = some a → findCourse db a.courseId = none →
      submitFiles db uid Role.student aid uploaded now = .error .Forbidden) ∧
    (∀ a c, findAssignment db aid = some a → findCourse db a.courseId = some c →
      uid ∉ c.students →
      submitFiles db uid Role.student aid uploaded now = .error .Forbidden) ∧
    (∀ e, submitFiles db uid role aid uploaded now = .error e →
      dbAfterSubmit db uid role aid uploaded now = db) := by
  refine ⟨?_, ?_, ?_, ?_, ?_⟩
  · intro h
    simp [submitFiles, h]
  · intro h
    simp [submitFiles, h]
  · intro a ha hc
    simp [submitFiles, ha, hc]
  · intro a c ha hc hm
    simp [submitFiles, ha, hc, hm]
  · intro e h
    simp [dbAfterSubmit, h]

theorem submit_error_cases_witness :
    submitFiles exDB "t1" Role.teacher "a1" [] 0 = .error .Forbidden ∧
    submitFiles exDB "s1" Role.student "zz" [] 0 = .error .NotFound ∧
    submitFiles exDB "s9" Role.student "a1" [] 0 = .error .Forbidden :=
  ⟨(submit_error_cases exDB "t1" Role.teacher "a1" [] 0).1 (by decide),
   (submit_error_cases exDB "s1" Role.student "zz" [] 0).2.1 (by decide),
   (submit_error_cases exDB "s9" Role.student "a1" [] 0).2.2.2.1 asg1 course1
     (by decide) (by decide) (by decide)⟩

/-- C3: create-assignment fails with Forbidden for a non-teacher caller
and for a teacher who does not own the referenced course, fails with
InvalidInput when `title` or `courseId` is missing (or empty) or
`maxMarks` is absent or not positive — in particular `maxMarks ≤ 0` is
rejected — and on success appends and returns a new assignment with an
empty submissions list. The input validation runs before the ownership
check. -/
theorem create_assignment_spec (db : DB) (uid : String) (role : Role)
    (courseId title description : Option String) (dueDate : Option Int)
    (maxMarks : Option Int) (newId : String) (now : Int) :
    (role ≠ Role.teacher →
      createAssignment db uid role courseId title description dueDate maxMarks newId now =
        .error .Forbidden) ∧
    (badAssignmentInput courseId title maxMarks = true →
      createAssignment db uid Role.teacher courseId title description dueDate maxMarks newId now =
        .error .InvalidInput) ∧
    (∀ m, maxMarks = some m → m ≤ 0 →
      createAssignment db uid Role.teacher courseId title description dueDate maxMarks newId now =
        .error .InvalidInput) ∧
    (∀ cid ttl mm, courseId = some cid → title = some ttl → maxMarks = some mm →
      badAssignmentInput courseId title maxMarks = false →
      (findCourse db cid = none →
        createAssignment db uid Role.teacher courseId title description dueDate maxMarks newId now =
          .error .Forbidden) ∧
      (∀ c, findCourse db cid = some c → c.teacherId ≠ uid →
        createAssignment db uid Role.teacher courseId title description dueDate maxMarks newId now =
          .error .Forbidden) ∧
      (∀ c, findCourse db cid = some c → c.teacherId = uid →
        ∃ a, createAssignment db uid Role.teacher courseId title description dueDate maxMarks newId now =
            .ok ({ db with assignments := db.assignments ++ [a] }, a) ∧
          a.submissions = [] ∧ a.id = newId ∧ a.courseId = cid ∧ a.title = ttl ∧
          a.maxMarks = mm ∧ 0 < a.maxMarks)) := by
  refine ⟨?_, ?_, ?_, ?_⟩
  · intro h
    simp [createAssignment, h]
  · intro hbad
    cases hcid : strFalsy courseId
    · cases httl : strFalsy title
      · cases maxMarks with
        | none => simp [createAssignment, hcid, httl]
        | some m =>
          have hm : m ≤ 0 := by
            simpa [badAssignmentInput, hcid, httl] using hbad
          rcases courseId with _ | cid
          · simp [strFalsy] at hcid
          · rcases title with _ | ttl
            · simp [strFalsy] at httl
            · simp [createAssignment, hcid, httl, hm]
      · rcases title with _ | ttl
        · simp [createAssignment, hcid, strFalsy]
        · simp [createAssignment, hcid, httl]
    · rcases courseId with _ | cid
      · simp [createAssignment, strFalsy]
      · simp [createAssignment, hcid]
  · intro m hm hm0
    subst hm
    cases hcid : strFalsy courseId
    · cases httl : strFalsy title
      · rcases courseId with _ | cid
        · simp [strFalsy] at hcid
        · rcases title with _ | ttl
          · simp [strFalsy] at httl
          · simp [createAssignment, hcid, httl, hm0]
      · rcases title with _ | ttl
        · simp [createAssignment, hcid, strFalsy]
        · simp [createAssignment, hcid, httl]
    · rcases courseId with _ | cid
      · simp [createAssignment, strFalsy]
      · simp [createAssignment, hcid]
  · intro cid ttl mm hcid httl hmm hgood
    subst hcid
    subst httl
    subst hmm
    have hcidf : strFalsy (some cid) = false := by
      rcases h : strFalsy (some cid) with _ | _
      · rfl
      · simp [badAssignmentInput, h] at hgood
    have httlf : strFalsy (some ttl) = false := by
      rcases h : strFalsy (some ttl) with _ | _
      · rfl
      · simp [badAssignmentInput, h] at hgood
    have hmmpos : 0 < mm := by
      have := hgood
      simp [badAssignmentInput, hcidf, httlf] at this
      omega
    refine ⟨?_, ?_, ?_⟩
    · intro hfc
      simp [createAssignment, hcidf, httlf, hfc, Int.not_le.mpr hmmpos]
    · intro c hfc hown
      simp [createAssignment, hcidf, httlf, hfc, hown, Int.not_le.mpr hmmpos]
    · intro c hfc hown
      refine ⟨mkAssignment newId cid ttl description dueDate mm uid now, ?_,
              by simp [mkAssignment], rfl, rfl, rfl, rfl, hmmpos⟩
      simp [createAssignment, hcidf, httlf, hfc, hown, Int.not_le.mpr hmmpos]

theorem create_assignment_spec_witness :
    createAssignment exDB "s1" Role.student (some "c1") (some "HW2") none none (some 50) "a2" 10 =
      .error .Forbidden ∧
    createAssignment exDB "t1" Role.teacher (some "c1") (some "HW2") none none (some 0) "a2" 10 =
      .error .InvalidInput ∧
    (∃ a, createAssignment exDB "t1" Role.teacher (some "c1") (some "HW2") none none (some 50) "a2" 10 =
        .ok ({ exDB with assignments := exDB.assignments ++ [a] }, a) ∧ a.submissions = []) := by
  refine ⟨?_, ?_, ?_⟩
  · exact (create_assignment_spec exDB "s1" Role.student (some "c1") (some "HW2")
      none none (some 50) "a2" 10).1 (by decide)
  · exact (create_assignment_spec exDB "t1" Role.teacher (some "c1") (some "HW2")
      none none (some 0) "a2" 10).2.2.1 0 rfl (by decide)
  · obtain ⟨a, h1, h2, _⟩ :=
      ((create_assignment_spec exDB "t1" Role.teacher (some "c1") (some "HW2")
        none none (some 50) "a2" 10).2.2.2 "c1" "HW2" 50 rfl rfl rfl (by decide)).2.2
        course1 (by decide) (by decide)
    exact ⟨a, h1, h2⟩

/-- C1: each assignment's submissions list holds at most one record per
student; the invariant is preserved by every mutating operation (submit,
create-assignment, grade, delete-file, join-course), and a submit by a
student who already has a record rewrites that record in place —
appending the uploaded files and refreshing the timestamp — leaving the
number of submission records unchanged instead of adding a second one. -/
theorem at_most_one_submission_per_student (db : DB) (hinv : dbInv db)
    (uid sid newId cid fileUrl : String) (role : Role) (aid : String)
    (uploaded : List FileRef) (now : Int)
    (courseId title description : Option String) (dueDate maxMarks marks : Option Int)
    (feedback : Option String) (remoteOk : Bool) :
    dbInv (dbAfterSubmit db uid role aid uploaded now) ∧
    dbInv (dbAfterCreate db uid role courseId title description dueDate maxMarks newId now) ∧
    dbInv (dbAfterGrade db uid role aid sid marks feedback) ∧
    dbInv (dbAfterDeleteFile db uid aid fileUrl remoteOk) ∧
    dbInv (dbAfterJoin db uid role cid) ∧
    (∀ a prev, findAssignment db aid = some a →
      a.submissions.find? (fun s => s.studentId == uid) = some prev →
      ∀ db' sub, submitFiles db uid role aid uploaded now = .ok (db', sub) →
      ∃ a', findAssignment db' aid = some a' ∧
        a'.submissions.length = a.submissions.length ∧
        a'.submissions.find? (fun s => s.studentId == uid) =
          some (submitUpdate uploaded now a.dueDate prev)) := by
  refine ⟨?_, ?_, ?_, ?_, ?_, ?_⟩
  · unfold dbAfterSubmit
    rcases h : submitFiles db uid role aid uploaded now with e | ⟨db', sub⟩
    · exact hinv
    · exact submitFiles_ok_inv hinv h
  · unfold dbAfterCreate
    rcases h : createAssignment db uid role courseId title description dueDate maxMarks newId now
      with e | ⟨db', a⟩
    · exact hinv
    · exact createAssignment_ok_inv hinv h
  · unfold dbAfterGrade
    rcases h : gradeSubmission db uid role aid sid marks feedback with e | ⟨db', s⟩
    · exact hinv
    · exact gradeSubmission_ok_inv hinv h
  · unfold dbAfterDeleteFile
    rcases h : deleteFile db uid aid fileUrl remoteOk with e | db'
    · exact hinv
    · exact deleteFile_ok_inv hinv h
  · unfold dbAfterJoin
    rcases h : joinCourse db uid role cid with e | ⟨db', c⟩
    · exact hinv
    · intro x hx
      rw [joinCourse_assignments h] at hx
      exact hinv x hx
  · intro a prev ha hprev db' sub h
    by_cases hrole : role = Role.student
    · subst hrole
      rcases hc : findCourse db a.courseId with _ | c
      · simp [submitFiles, ha, hc] at h
      · by_cases hm : uid ∈ c.students
        · simp [submitFiles, ha, hc, hm, hprev] at h
          obtain ⟨rfl, -⟩ := h
          refine ⟨_, findAssignment_saveAssignment db aid a _ ha rfl, ?_, ?_⟩
          · exact updateFirst_length _ _ _
          · obtain ⟨l₁, l₂, hd1, hd2, hfalse⟩ :=
              updateFirst_decomp (fun s => s.studentId == uid)
                (submitUpdate uploaded now a.dueDate) a.submissions prev hprev
            show (updateFirst (fun s => s.studentId == uid)
              (submitUpdate uploaded now a.dueDate) a.submissions).find?
                (fun s => s.studentId == uid) = some (submitUpdate uploaded now a.dueDate prev)
            rw [hd2]
            have hpx := List.find?_some hprev
            exact find?_append_cons _ (submitUpdate uploaded now a.dueDate prev) hpx l₁ l₂ hfalse
        · simp [submitFiles, ha, hc, hm] at h
    · simp [submitFiles, hrole] at h

theorem at_most_one_submission_per_student_witness :
    dbInv (dbAfterSubmit exDB "s1" Role.student "a1" [file1] 200) :=
  (at_most_one_submission_per_student exDB
    (by intro a ha; have h := List.mem_singleton.mp ha; subst h; unfold subOncePerStudent; decide)
    "s1" "s1" "a2" "c1" "u1" Role.student "a1" [file1] 200
    none none none none none none none false).1

/-- C4: a successful submit by an enrolled student creates, when no
prior submission exists, a record with the uploaded files, the current
timestamp, null score and feedback, and a late flag `now > dueDate`;
when a prior submission exists it appends the uploaded files and
recomputes timestamp and late flag against the same due date; and the
submission returned by a successful submit after the due date has a true
late flag. -/
theorem submit_success_spec (db : DB) (uid aid : String) (uploaded : List FileRef)
    (now : Int) (a : Assignment) (c : Course)
    (ha : findAssignment db aid = some a)
    (hc : findCourse db a.courseId = some c)
    (henr : uid ∈ c.students) :
    (a.submissions.find? (fun s => s.studentId == uid) = none →
      submitFiles db uid Role.student aid uploaded now =
        .ok (saveAssignment db
               { a with submissions := a.submissions ++ [freshSub uid uploaded now a.dueDate] },
             freshSub uid uploaded now a.dueDate)) ∧
    (∀ prev, a.submissions.find? (fun s => s.studentId == uid) = some prev →
      submitFiles db uid Role.student aid uploaded now =
        .ok (saveAssignment db
               { a with
                 submissions := updateFirst (fun s => s.studentId == uid)
                   (submitUpdate uploaded now a.dueDate) a.submissions },
             submitUpdate uploaded now a.dueDate prev)) ∧
    (∀ db' sub, submitFiles db uid Role.student aid uploaded now = .ok (db', sub) →
      now > a.dueDate → sub.isLate = true) := by
  refine ⟨?_, ?_, ?_⟩
  · intro hnone
    simp [submitFiles, ha, hc, henr, hnone, freshSub]
  · intro prev hprev
    simp [submitFiles, ha, hc, henr, hprev, submitUpdate]
    rfl
  · intro db' sub h hlate
    rcases hf : a.submissions.find? (fun s => s.studentId == uid) with _ | prev
    · simp [submitFiles, ha, hc, henr, hf] at h
      rw [← h.2]
      simp [hlate]
    · simp [submitFiles, ha, hc, henr, hf] at h
      rw [← h.2]
      simp [hlate]

theorem submit_success_spec_witness :
    ∃ db' sub, submitFiles exDB "s1" Role.student "a1" [file1] 200 = .ok (db', sub) ∧
      sub.files = [file1, file1] ∧ sub.submittedAt = 200 ∧ sub.isLate = true := by
  have h := (submit_success_spec exDB "s1" "a1" [file1] 200 asg1 course1
    (by decide) (by decide) (by decide)).2.1 sub1 (by decide)
  exact ⟨_, _, h, by decide, by decide, by decide⟩

/-- C10: a submit request with zero attached files by an enrolled
student succeeds: with no prior submission it creates a record with an
empty file list and freshly computed timestamp and late flag (the
student leaves the unsubmitted state without uploading anything); with a
prior submission only the timestamp and late flag change. -/
theorem submit_no_files_spec (db : DB) (uid aid : String) (now : Int)
    (a : Assignment) (c : Course)
    (ha : findAssignment db aid = some a)
    (hc : findCourse db a.courseId = some c)
    (henr : uid ∈ c.students) :
    (a.submissions.find? (fun s => s.studentId == uid) = none →
      ∃ db', submitFiles db uid Role.student aid [] now =
        .ok (db', { studentId := uid, files := [], submittedAt := now,
                    marks := none, feedback := none,
                    isLate := decide (now > a.dueDate) })) ∧
    (∀ prev, a.submissions.find? (fun s => s.studentId == uid) = some prev →
      ∃ db', submitFiles db uid Role.student aid [] now =
        .ok (db', { studentId := prev.studentId, files := prev.files,
                    submittedAt := now, marks := prev.marks,
                    feedback := prev.feedback,
                    isLate := decide (now > a.dueDate) })) := by
  constructor
  · intro hnone
    refine ⟨saveAssignment db { a with submissions := a.submissions ++ [freshSub uid [] now a.dueDate] }, ?_⟩
    simp [submitFiles, ha, hc, henr, hnone, freshSub]
  · intro prev hprev
    refine ⟨saveAssignment db { a with submissions := updateFirst (fun s => s.studentId == uid) (submitUpdate [] now a.dueDate) a.submissions }, ?_⟩
    have he : ∀ s : Submission, submitUpdate [] now a.dueDate s =
        { s with submittedAt := now, isLate := decide (now > a.dueDate) } := by
      intro s
      simp [submitUpdate]
    rw [updateFirst_congr _ _ _ he]
    simp [submitFiles, ha, hc, henr, hprev, submitUpdate]

theorem submit_no_files_spec_witness :
    ∃ db', submitFiles exDB "s1" Role.student "a1" [] 200 =
      .ok (db', { studentId := "s1", files := [file1], submittedAt := 200,
                  marks := none, feedback := none, isLate := true }) := by
  have h := (submit_no_files_spec exDB "s1" "a1" 200 asg1 course1
    (by decide) (by decide) (by decide)).2 sub1 (by decide)
  simpa using h

theorem listSubmissions_teacher_eq {db : DB} {uid aid : String} {a : Assignment} {c : Course}
    (ha : findAssignment db aid = some a) (hc : findCourse db a.courseId = some c)
    (hown : c.teacherId = uid) :
    listSubmissions db uid Role.teacher aid =
      .ok (.teacherView (a.submissions.map (enrich db))) := by
  simp [listSubmissions, ha, hc, hown]

theorem enrich_fields (db : DB) (s : Submission) :
    (enrich db s).studentId = s.studentId ∧ (enrich db s).marks = s.marks ∧
      (enrich db s).feedback = s.feedback := by
  unfold enrich
  cases findUser db s.studentId <;> simp

/-- C6: listing an assignment's submissions: a teacher caller who owns
the course receives every submission enriched with the student's display
name and roll number ("Unknown"/null when the user record is missing); a
student caller receives exactly their own submission, or an empty list
when they have none; the remaining caller/role combinations — a
non-owning teacher or a non-enrolled student (roles are only student and
teacher) — fail with Forbidden. -/
theorem list_submissions_spec (db : DB) (uid aid : String) (a : Assignment) (c : Course)
    (ha : findAssignment db aid = some a)
    (hc : findCourse db a.courseId = some c) :
    (c.teacherId = uid →
      listSubmissions db uid Role.teacher aid =
        .ok (.teacherView (a.submissions.map (enrich db)))) ∧
    (∀ s u, findUser db s.studentId = some u →
      (enrich db s).studentName = u.name ∧ (enrich db s).rollNumber = u.rollNumber ∧
      (enrich db s).marks = s.marks ∧ (enrich db s).feedback = s.feedback) ∧
    (c.teacherId ≠ uid → listSubmissions db uid Role.teacher aid = .error .Forbidden) ∧
    (uid ∈ c.students →
      (a.submissions.find? (fun s => s.studentId == uid) = none →
        listSubmissions db uid Role.student aid = .ok (.studentView [])) ∧
      (∀ s, a.submissions.find? (fun s0 => s0.studentId == uid) = some s →
        listSubmissions db uid Role.student aid = .ok (.studentView [s]) ∧
        s.studentId = uid)) ∧
    (uid ∉ c.students → listSubmissions db uid Role.student aid = .error .Forbidden) := by
  refine ⟨?_, ?_, ?_, ?_, ?_⟩
  · intro hown
    simp [listSubmissions, ha, hc, hown]
  · intro s u hu
    simp [enrich, hu]
  · intro hown
    simp [listSubmissions, ha, hc, hown]
  · intro hmem
    constructor
    · intro hf
      simp [listSubmissions, ha, hc, hmem, hf]
    · intro s hf
      refine ⟨by simp [listSubmissions, ha, hc, hmem, hf], ?_⟩
      simpa using List.find?_some hf
  · intro hmem
    simp [listSubmissions, ha, hc, hmem]

theorem list_submissions_spec_witness :
    listSubmissions exDB "t1" Role.teacher "a1" = .ok (.teacherView [enrich exDB sub1]) ∧
    listSubmissions exDB "s1" Role.student "a1" = .ok (.studentView [sub1]) ∧
    listSubmissions exDB "s9" Role.student "a1" = .error .Forbidden :=
  ⟨(list_submissions_spec exDB "t1" "a1" asg1 course1 (by decide) (by decide)).1 (by decide),
   (((list_submissions_spec exDB "s1" "a1" asg1 course1 (by decide) (by decide)).2.2.2.1
      (by decide)).2 sub1 (by decide)).1,
   (list_submissions_spec exDB "s9" "a1" asg1 course1 (by decide) (by decide)).2.2.2.2
     (by decide)⟩

/-- C5: grade-then-list round trip: after the owning teacher grades an
existing submission with score 85 and feedback "Good job", listing the
assignment's submissions as that owning teacher yields a record for that
student carrying marks 85 and feedback "Good job". -/
theorem grade_then_list_round_trip (db : DB) (uid aid sid : String)
    (a : Assignment) (c : Course) (sub : Submission)
    (ha : findAssignment db aid = some a)
    (hc : findCourse db a.courseId = some c)
    (hown : c.teacherId = uid)
    (hsub : a.submissions.find? (fun s => s.studentId == sid) = some sub) :
    ∃ db' g, gradeSubmission db uid Role.teacher aid sid (some 85) (some "Good job") =
        .ok (db', g) ∧
      ∃ views, listSubmissions db' uid Role.teacher aid = .ok (.teacherView views) ∧
        ∃ v ∈ views, v.studentId = sid ∧ v.marks = some 85 ∧
          v.feedback = some "Good job" := by
  have hgr : gradeSubmission db uid Role.teacher aid sid (some 85) (some "Good job") =
      .ok (saveAssignment db
             { a with
               submissions := updateFirst (fun s => s.studentId == sid)
                 (gradeUpdate (some 85) (some "Good job")) a.submissions },
           gradeUpdate (some 85) (some "Good job") sub) := by
    simp [gradeSubmission, ha, hc, hown, hsub, gradeUpdate]
    rfl
  refine ⟨_, _, hgr, ?_⟩
  have hfa' := findAssignment_saveAssignment db aid a
    { a with
      submissions := updateFirst (fun s => s.studentId == sid)
        (gradeUpdate (some 85) (some "Good job")) a.submissions } ha rfl
  have hfc' : findCourse (saveAssignment db
      { a with
        submissions := updateFirst (fun s => s.studentId == sid)
          (gradeUpdate (some 85) (some "Good job")) a.submissions }) a.courseId = some c := hc
  have hls := listSubmissions_teacher_eq hfa' hfc' hown
  refine ⟨_, hls, ?_⟩
  refine ⟨enrich _ (gradeUpdate (some 85) (some "Good job") sub),
    List.mem_map_of_mem _ (updateFirst_mem_of_find? _ _ hsub), ?_, ?_, ?_⟩
  · have h1 := (enrich_fields (saveAssignment db
      { a with
        submissions := updateFirst (fun s => s.studentId == sid)
          (gradeUpdate (some 85) (some "Good job")) a.submissions })
      (gradeUpdate (some 85) (some "Good job") sub)).1
    rw [h1]
    have hps := List.find?_some hsub
    simpa [gradeUpdate] using hps
  · exact (enrich_fields _ _).2.1
  · exact (enrich_fields _ _).2.2

theorem grade_then_list_round_trip_witness :
    ∃ db' g, gradeSubmission exDB "t1" Role.teacher "a1" "s1" (some 85) (some "Good job") =
        .ok (db', g) ∧
      ∃ views, listSubmissions db' "t1" Role.teacher "a1" = .ok (.teacherView views) ∧
        ∃ v ∈ views, v.studentId = "s1" ∧ v.marks = some 85 ∧
          v.feedback = some "Good job" :=
  grade_then_list_round_trip exDB "t1" "a1" "s1" asg1 course1 sub1
    (by decide) (by decide) (by decide) (by decide)

/-- C7 counterexample: the claim's clause "fails with Forbidden unless
the acting user owns the submission" is false on the code: in the
concrete state below, the acting user `s2` does not own the submission
holding the file `u1` (student `s1` does), yet the delete-file request
returns NotFound, not Forbidden — the route has no Forbidden branch at
all. -/
theorem delete_file_forbidden_counterexample :
    ¬ (∀ (db : DB) (uid aid url : String) (remoteOk : Bool) (a : Assignment),
        findAssignment db aid = some a → ¬ ownsFileSubmission a uid url →
        deleteFile db uid aid url remoteOk = .error .Forbidden) := by
  intro h
  have h2 := h exDB "s2" "a1" "u1" true asg1 (by decide) (by decide)
  have h3 : deleteFile exDB "s2" "a1" "u1" true = .error .NotFound := rfl
  rw [h3] at h2
  exact absurd (Except.error.inj h2) (by decide)

/-- C7 amended: the route never answers Forbidden; ownership is enforced
structurally because the submission is looked up by the caller's own id,
so only the caller's submission is ever read or modified. It fails with
NotFound when the assignment is missing or the caller has no submission
on it; on success every file reference carrying the given url is removed
from the caller's submission's file list and persisted; and the stored
outcome is independent of whether the remote deletion succeeded. -/
theorem delete_file_spec (db : DB) (uid aid url : String) (remoteOk : Bool) :
    (findAssignment db aid = none → deleteFile db uid aid url remoteOk = .error .NotFound) ∧
    (∀ a, findAssignment db aid = some a →
      a.submissions.find? (fun s => s.studentId == uid) = none →
      deleteFile db uid aid url remoteOk = .error .NotFound) ∧
    (∀ b₁ b₂, deleteFile db uid aid url b₁ = deleteFile db uid aid url b₂) ∧
    (∀ a prev, findAssignment db aid = some a →
      a.submissions.find? (fun s => s.studentId == uid) = some prev →
      ∃ db', deleteFile db uid aid url remoteOk = .ok db' ∧
        ∃ a', findAssignment db' aid = some a' ∧
          a'.submissions.find? (fun s => s.studentId == uid) =
            some (delFileUpdate url prev) ∧
          ∀ f ∈ (delFileUpdate url prev).files, f.url ≠ url) := by
  refine ⟨?_, ?_, ?_, ?_⟩
  · intro h
    simp [deleteFile, h]
  · intro a ha hf
    simp [deleteFile, ha, hf]
  · intro b₁ b₂
    rfl
  · intro a prev ha hprev
    have hdel : deleteFile db uid aid url remoteOk =
        .ok (saveAssignment db
              { a with
                submissions := updateFirst (fun s => s.studentId == uid)
                  (delFileUpdate url) a.submissions }) := by
      simp [deleteFile, ha, hprev]
    refine ⟨_, hdel, ?_⟩
    refine ⟨_, findAssignment_saveAssignment db aid a _ ha rfl, ?_, ?_⟩
    · obtain ⟨l₁, l₂, hd1, hd2, hfalse⟩ :=
        updateFirst_decomp (fun s => s.studentId == uid) (delFileUpdate url)
          a.submissions prev hprev
      show (updateFirst (fun s => s.studentId == uid) (delFileUpdate url)
        a.submissions).find? (fun s => s.studentId == uid) = some (delFileUpdate url prev)
      rw [hd2]
      have hpx := List.find?_some hprev
      exact find?_append_cons _ (delFileUpdate url prev) hpx l₁ l₂ hfalse
    · intro f hf
      have hmem := List.mem_filter.mp hf
      simpa using hmem.2

theorem delete_file_spec_witness :
    ∃ db', deleteFile exDB "s1" "a1" "u1" true = .ok db' ∧
      ∃ a', findAssignment db' "a1" = some a' ∧
        a'.submissions.find? (fun s => s.studentId == "s1") =
          some (delFileUpdate "u1" sub1) ∧
        ∀ f ∈ (delFileUpdate "u1" sub1).files, f.url ≠ "u1" :=
  (delete_file_spec exDB "s1" "a1" "u1" true).2.2.2 asg1 sub1 (by decide) (by decide)

/-- C8: joining a course is idempotent: a join by an already-enrolled
student is a no-op (the state is returned unchanged, with success, not
an error), and two consecutive joins by the same student — starting from
any state where the student appears at most once in the enrollment set —
leave the enrollment set with exactly one entry for that student. -/
theorem join_course_idempotent (db : DB) (uid cid : String) (c : Course)
    (hc : findCourse db cid = some c) :
    (uid ∈ c.students → joinCourse db uid Role.student cid = .ok (db, c)) ∧
    (c.students.count uid ≤ 1 →
      ∃ c', findCourse (dbAfterJoin (dbAfterJoin db uid Role.student cid) uid Role.student cid)
          cid = some c' ∧ c'.students.count uid = 1) := by
  constructor
  · intro hm
    simp [joinCourse, hc, hm]
  · intro hcount
    by_cases hm : uid ∈ c.students
    · have h1 : joinCourse db uid Role.student cid = .ok (db, c) := by
        simp [joinCourse, hc, hm]
      have hd : dbAfterJoin db uid Role.student cid = db := by
        simp [dbAfterJoin, h1]
      rw [hd, hd]
      refine ⟨c, hc, ?_⟩
      have hpos : 0 < c.students.count uid := List.count_pos_iff.mpr hm
      omega
    · have hcount0 : c.students.count uid = 0 := List.count_eq_zero.mpr hm
      have h1 : joinCourse db uid Role.student cid =
          .ok (saveCourse db { c with students := c.students ++ [uid] },
               { c with students := c.students ++ [uid] }) := by
        simp [joinCourse, hc, hm]
      have hd1 : dbAfterJoin db uid Role.student cid =
          saveCourse db { c with students := c.students ++ [uid] } := by
        simp [dbAfterJoin, h1]
      have hfc1 : findCourse (saveCourse db { c with students := c.students ++ [uid] }) cid =
          some { c with students := c.students ++ [uid] } :=
        findCourse_saveCourse db cid c _ hc rfl
      have hm1 : uid ∈ ({ c with students := c.students ++ [uid] } : Course).students := by
        simp
      have h2 : joinCourse (saveCourse db { c with students := c.students ++ [uid] }) uid
          Role.student cid =
          .ok (saveCourse db { c with students := c.students ++ [uid] },
               { c with students := c.students ++ [uid] }) := by
        simp [joinCourse, hfc1, hm1]
      have hd2 : dbAfterJoin (saveCourse db { c with students := c.students ++ [uid] }) uid
          Role.student cid = saveCourse db { c with students := c.students ++ [uid] } := by
        simp [dbAfterJoin, h2]
      rw [hd1, hd2]
      refine ⟨_, hfc1, ?_⟩
      simp [List.count_append, hcount0]

theorem join_course_idempotent_witness :
    ∃ c', findCourse (dbAfterJoin (dbAfterJoin exDB "s2" Role.student "c1") "s2" Role.student "c1")
        "c1" = some c' ∧ c'.students.count "s2" = 1 :=
  (join_course_idempotent exDB "s2" "c1" course1 (by decide)).2 (by decide)

theorem contains_owned_ids (cs : List Course) (uid cid : String) :
    ((cs.filter (fun c => c.teacherId == uid)).map (fun c => c.id)).contains cid =
      cs.any (fun c => c.teacherId == uid && c.id == cid) := by
  rw [Bool.eq_iff_iff]
  simp [List.mem_filter]
  tauto

theorem filter_map_sum_append {α : Type} (P : α → Bool) (U : α → Nat) (l₁ l₂ : List α) :
    (((l₁ ++ l₂).filter P).map U).sum =
      ((l₁.filter P).map U).sum + ((l₂.filter P).map U).sum := by
  simp

theorem filter_map_sum_cons {α : Type} (P : α → Bool) (U : α → Nat) (x : α) (l : List α) :
    (((x :: l).filter P).map U).sum =
      (if P x then U x else 0) + ((l.filter P).map U).sum := by
  cases h : P x <;> simp [List.filter_cons, h]

theorem ownedByTeacher_setAssignments (db : DB) (l : List Assignment) (uid : String) :
    ownedByTeacher { db with assignments := l } uid = ownedByTeacher db uid := rfl

theorem count_after_swap (db : DB) (uid aid : String) (a a2 : Assignment)
    (ha : findAssignment db aid = some a)
    (hid : a2.id = a.id)
    (hPa : ownedByTeacher db uid a = true)
    (hUa : 1 ≤ ungradedCount a)
    (himp : ungradedCount a = 1 → ungradedCount a2 = 0)
    (hone : specUngradedCount db uid = 1) :
    specUngradedCount (saveAssignment db a2) uid = 0 := by
  have haid : a.id = aid := by simpa using List.find?_some ha
  have hpred : (fun x : Assignment => x.id == a2.id) = (fun x : Assignment => x.id == aid) := by
    funext x
    rw [hid, haid]
  obtain ⟨L₁, L₂, hl1, hl2, -⟩ :=
    updateFirst_decomp (fun x : Assignment => x.id == aid) (fun _ => a2) db.assignments a ha
  have hsave : saveAssignment db a2 = { db with assignments := L₁ ++ a2 :: L₂ } := by
    unfold saveAssignment
    rw [hpred, hl2]
  have hone' : ((L₁.filter (ownedByTeacher db uid)).map ungradedCount).sum +
      (ungradedCount a +
        ((L₂.filter (ownedByTeacher db uid)).map ungradedCount).sum) = 1 := by
    have h0 := hone
    unfold specUngradedCount at h0
    rw [hl1, filter_map_sum_append, filter_map_sum_cons, hPa] at h0
    simpa using h0
  rw [hsave]
  unfold specUngradedCount
  rw [ownedByTeacher_setAssignments]
  show (((L₁ ++ a2 :: L₂).filter (ownedByTeacher db uid)).map ungradedCount).sum = 0
  rw [filter_map_sum_append, filter_map_sum_cons]
  have hz : ungradedCount a = 1 := by omega
  have hU2 := himp hz
  cases hb : ownedByTeacher db uid a2 <;> simp [hU2] <;> omega

theorem grade_branch_count (db : DB) (uid aid sid : String) (m : Int) (fbv : Option String)
    (a : Assignment) (c : Course) (sub : Submission)
    (ha : findAssignment db aid = some a)
    (hc : findCourse db a.courseId = some c)
    (hown : c.teacherId = uid)
    (hsub : a.submissions.find? (fun s => s.studentId == sid) = some sub)
    (hmnone : sub.marks = none)
    (hone : specUngradedCount db uid = 1) :
    specUngradedCount (saveAssignment db
      { a with
        submissions := updateFirst (fun s => s.studentId == sid)
          (gradeUpdate (some m) fbv) a.submissions }) uid = 0 := by
  have hcid : c.id = a.courseId := by simpa using List.find?_some hc
  have hPa : ownedByTeacher db uid a = true := by
    unfold ownedByTeacher
    rw [List.any_eq_true]
    exact ⟨c, List.mem_of_find?_eq_some hc, by simp [hown, hcid]⟩
  have hUa : 1 ≤ ungradedCount a := by
    have hpos : 0 < a.submissions.countP (fun s => s.marks == none) :=
      List.countP_pos_iff.mpr ⟨sub, List.mem_of_find?_eq_some hsub, by simp [hmnone]⟩
    unfold ungradedCount
    omega
  have himp : ungradedCount a = 1 →
      ungradedCount { a with
        submissions := updateFirst (fun s => s.studentId == sid)
          (gradeUpdate (some m) fbv) a.submissions } = 0 := by
    intro h1
    obtain ⟨M₁, M₂, hm1, hm2, -⟩ :=
      updateFirst_decomp (fun s => s.studentId == sid) (gradeUpdate (some m) fbv)
        a.submissions sub hsub
    have hq : (sub.marks == none) = true := by simp [hmnone]
    have hcnt : M₁.countP (fun s => s.marks == none) +
        (M₂.countP (fun s => s.marks == none) + 1) = 1 := by
      have h2 := h1
      unfold ungradedCount at h2
      rw [hm1, List.countP_append, List.countP_cons, hq] at h2
      simp at h2
      omega
    have hgm : ((gradeUpdate (some m) fbv sub).marks == none) = false := by
      simp [gradeUpdate]
    show (updateFirst (fun s => s.studentId == sid) (gradeUpdate (some m) fbv)
      a.submissions).countP (fun s => s.marks == none) = 0
    rw [hm2, List.countP_append, List.countP_cons]
    have hifz : (if ((gradeUpdate (some m) fbv sub).marks == none) = true then 1 else 0) = 0 := by
      simp [hgm]
    rw [hifz]
    omega
  exact count_after_swap db uid aid a _ ha rfl hPa hUa himp hone

/-- C9: the teacher dashboard's submissionsToGradeCount equals the
number of score-less submissions across all assignments of the courses
the teacher owns (the route's flatten-and-count computation refines the
spec's description), and grading the only such ungraded submission with
a numeric score drops the count to 0. -/
theorem teacher_dashboard_to_grade_count (db : DB) (uid : String) :
    (teacherDashboard db uid).2.2 = specUngradedCount db uid ∧
    (∀ (aid sid : String) (m : Int) (fb : Option String) (a : Assignment) (c : Course)
        (sub : Submission),
      findAssignment db aid = some a →
      findCourse db a.courseId = some c →
      c.teacherId = uid →
      a.submissions.find? (fun s => s.studentId == sid) = some sub →
      sub.marks = none →
      specUngradedCount db uid = 1 →
      ∀ db' g, gradeSubmission db uid Role.teacher aid sid (some m) fb = .ok (db', g) →
        specUngradedCount db' uid = 0) := by
  constructor
  · unfold teacherDashboard specUngradedCount
    have hfil : db.assignments.filter
        (fun a => (((db.courses.filter (fun c => c.teacherId == uid)).map
          (fun c => c.id))).contains a.courseId) =
        db.assignments.filter (ownedByTeacher db uid) :=
      List.filter_congr (fun a _ => contains_owned_ids db.courses uid a.courseId)
    simp only [List.length_flatten, List.map_map]
    rw [hfil]
    congr 1
    congr 1
    funext a
    simp [ungradedCount, List.countP_eq_length_filter, Function.comp]
  · intro aid sid m fb a c sub ha hc hown hsub hmnone hone db' g h
    cases fb with
    | none =>
      have hgr : gradeSubmission db uid Role.teacher aid sid (some m) none =
          .ok (saveAssignment db
                 { a with
                   submissions := updateFirst (fun s => s.studentId == sid)
                     (gradeUpdate (some m) none) a.submissions },
               gradeUpdate (some m) none sub) := by
        simp [gradeSubmission, ha, hc, hown, hsub, gradeUpdate]
        rfl
      rw [hgr] at h
      have hdb : db' = saveAssignment db
          { a with
            submissions := updateFirst (fun s => s.studentId == sid)
              (gradeUpdate (some m) none) a.submissions } :=
        ((Prod.ext_iff.mp (Except.ok.inj h)).1).symm
      rw [hdb]
      exact grade_branch_count db uid aid sid m none a c sub ha hc hown hsub hmnone hone
    | some f =>
      by_cases hfe : f = ""
      · subst hfe
        have hgr : gradeSubmission db uid Role.teacher aid sid (some m) (some "") =
            .ok (saveAssignment db
                   { a with
                     submissions := updateFirst (fun s => s.studentId == sid)
                       (gradeUpdate (some m) none) a.submissions },
                 gradeUpdate (some m) none sub) := by
          simp [gradeSubmission, ha, hc, hown, hsub, gradeUpdate]
          rfl
        rw [hgr] at h
        have hdb : db' = saveAssignment db
            { a with
              submissions := updateFirst (fun s => s.studentId == sid)
                (gradeUpdate (some m) none) a.submissions } :=
          ((Prod.ext_iff.mp (Except.ok.inj h)).1).symm
        rw [hdb]
        exact grade_branch_count db uid aid sid m none a c sub ha hc hown hsub hmnone hone
      · have hgr : gradeSubmission db uid Role.teacher aid sid (some m) (some f) =
            .ok (saveAssignment db
                   { a with
                     submissions := updateFirst (fun s => s.studentId == sid)
                       (gradeUpdate (some m) (some f)) a.submissions },
                 gradeUpdate (some m) (some f) sub) := by
          simp [gradeSubmission, ha, hc, hown, hsub, gradeUpdate, hfe]
          rfl
        rw [hgr] at h
        have hdb : db' = saveAssignment db
            { a with
              submissions := updateFirst (fun s => s.studentId == sid)
                (gradeUpdate (some m) (some f)) a.submissions } :=
          ((Prod.ext_iff.mp (Except.ok.inj h)).1).symm
        rw [hdb]
        exact grade_branch_count db uid aid sid m (some f) a c sub ha hc hown hsub hmnone hone

theorem teacher_dashboard_to_grade_count_witness :
    ∃ db' g, gradeSubmission exDB "t1" Role.teacher "a1" "s1" (some 90) none = .ok (db', g) ∧
      specUngradedCount db' "t1" = 0 := by
  refine ⟨_, _, rfl, ?_⟩
  exact (teacher_dashboard_to_grade_count exDB "t1").2 "a1" "s1" 90 none asg1 course1 sub1
    (by decide) (by decide) (by decide) (by decide) (by decide) (by decide) _ _ rfl

end StudentPortal
